import Mathlib

/-!
Shallow embedding of the ephemeral-vault custody system
(`programs/ephemeral_vault/src/lib.rs` and the backend service under
`backend/src/`), together with proofs of its stated properties.

Machine integers are modelled as `Nat` (for Rust `u64`) and `Int` (for
Rust `i64`); the checked arithmetic of the source (`checked_add`,
`checked_sub`, `checked_mul`) is modelled by explicit range tests against
`2 ^ 64` (resp. the `i64` range).  Fallible instruction handlers become
functions into `Except EphemeralVaultError _`; an `Except.error` result
models the transaction aborting with no state change (the execution
environment applies a transaction atomically).  Solana `Pubkey` values are
modelled as `Nat`.
-/

/-- `2 ^ 64`, the modulus of Rust `u64` arithmetic. -/
def U64_MOD : Nat := 2 ^ 64

/-- Rust `u64::checked_add`: `some (a + b)` when the sum fits in 64 bits. -/
def checkedAddU64 (a b : Nat) : Option Nat :=
  if a + b < U64_MOD then some (a + b) else none

/-- Rust `u64::checked_sub`: `some (a - b)` when no underflow occurs. -/
def checkedSubU64 (a b : Nat) : Option Nat :=
  if b ≤ a then some (a - b) else none

/-- Rust `u64::checked_mul`: `some (a * b)` when the product fits in 64 bits. -/
def checkedMulU64 (a b : Nat) : Option Nat :=
  if a * b < U64_MOD then some (a * b) else none

/-- Lower bound of Rust `i64`. -/
def I64_MIN : Int := -(2 ^ 63)

/-- Upper bound of Rust `i64`. -/
def I64_MAX : Int := 2 ^ 63 - 1

/-- Rust `i64::checked_add`: `some (a + b)` when the sum is in the i64 range. -/
def checkedAddI64 (a b : Int) : Option Int :=
  if I64_MIN ≤ a + b ∧ a + b ≤ I64_MAX then some (a + b) else none

/-- The on-ledger vault record (`EphemeralVault` account in `lib.rs`). -/
structure EphemeralVault where
  parentWallet : Nat
  ephemeralWallet : Nat
  sessionStart : Int
  sessionExpiry : Int
  isActive : Bool
  totalDeposited : Nat
  totalSpent : Nat
  maxDeposit : Nat
  bump : Nat
deriving DecidableEq

/-- The on-ledger delegation record (`VaultDelegation` account in `lib.rs`). -/
structure VaultDelegation where
  vault : Nat
  delegate : Nat
  approvedAt : Int
  revokedAt : Option Int
  bump : Nat
deriving DecidableEq

/-- The categorical errors of the program (`EphemeralVaultError` in `lib.rs`). -/
inductive EphemeralVaultError where
  | MathOverflow
  | SessionExpired
  | SessionNotExpired
  | VaultInactive
  | InvalidDelegate
  | InvalidDelegationAccount
  | DelegationRevoked
  | OverDeposit
  | InsufficientVaultBalance
deriving DecidableEq

/-- Helper `ensure_vault_active_and_not_expired` of `lib.rs`:
`require!(vault.is_active, VaultInactive)` then
`require!(clock.unix_timestamp <= vault.session_expiry, SessionExpired)`.
The ledger clock is the explicit parameter `now`. -/
def ensure_vault_active_and_not_expired (now : Int) (v : EphemeralVault) :
    Except EphemeralVaultError Unit :=
  if v.isActive then
    if now ≤ v.sessionExpiry then Except.ok ()
    else Except.error EphemeralVaultError.SessionExpired
  else Except.error EphemeralVaultError.VaultInactive

/-- Helper `ensure_vault_not_already_inactive` of `lib.rs`. -/
def ensure_vault_not_already_inactive (v : EphemeralVault) :
    Except EphemeralVaultError Unit :=
  if v.isActive then Except.ok ()
  else Except.error EphemeralVaultError.VaultInactive

/-- Instruction `create_vault` of `lib.rs`: computes
`session_expiry = now.checked_add(session_duration)` (failing with
`MathOverflow`), initialises both totals to zero and `is_active = true`. -/
def create_vault (now : Int) (parent ephemeralWallet : Nat)
    (sessionDuration : Int) (maxDeposit : Nat) (bump : Nat) :
    Except EphemeralVaultError EphemeralVault :=
  match checkedAddI64 now sessionDuration with
  | none => Except.error EphemeralVaultError.MathOverflow
  | some expiry =>
      Except.ok
        { parentWallet := parent
          ephemeralWallet := ephemeralWallet
          sessionStart := now
          sessionExpiry := expiry
          isActive := true
          totalDeposited := 0
          totalSpent := 0
          maxDeposit := maxDeposit
          bump := bump }

/-- Instruction `auto_deposit_for_trade` of `lib.rs`: after the
activity/expiry check, `new_total = total_deposited.checked_add(amount)`
(failing with `MathOverflow`), then `require!(new_total <= max_deposit,
OverDeposit)`; on success the system-program transfer moves `amount`
lamports from parent to vault and `total_deposited` becomes `new_total`.
The lamport movement is kept at the `stepLedger` level; this function
returns the updated record. -/
def auto_deposit_for_trade (now : Int) (v : EphemeralVault)
    (tradeFeeEstimate : Nat) : Except EphemeralVaultError EphemeralVault :=
  match ensure_vault_active_and_not_expired now v with
  | Except.error e => Except.error e
  | Except.ok _ =>
      match checkedAddU64 v.totalDeposited tradeFeeEstimate with
      | none => Except.error EphemeralVaultError.MathOverflow
      | some newTotal =>
          if newTotal ≤ v.maxDeposit then
            Except.ok { v with totalDeposited := newTotal }
          else Except.error EphemeralVaultError.OverDeposit

/-- Instruction `execute_trade` of `lib.rs`.  `vaultKey` is the vault
account's own address (`vault.key()`), `ephemeralSigner` the key of the
signing `ephemeral` account.  Checks, in source order: vault active and
not expired; `delegation.vault == vault.key()` (`InvalidDelegationAccount`);
`delegation.revoked_at.is_none()` (`DelegationRevoked`);
`delegation.delegate == ephemeral.key()` (`InvalidDelegate`);
`new_spent = total_spent.checked_add(fee_paid)` (`MathOverflow`);
`require!(new_spent <= total_deposited, InsufficientVaultBalance)`. -/
def execute_trade (now : Int) (vaultKey : Nat) (v : EphemeralVault)
    (d : VaultDelegation) (ephemeralSigner : Nat) (feePaid : Nat) :
    Except EphemeralVaultError EphemeralVault :=
  match ensure_vault_active_and_not_expired now v with
  | Except.error e => Except.error e
  | Except.ok _ =>
      if d.vault = vaultKey then
        if d.revokedAt.isNone then
          if d.delegate = ephemeralSigner then
            match checkedAddU64 v.totalSpent feePaid with
            | none => Except.error EphemeralVaultError.MathOverflow
            | some newSpent =>
                if newSpent ≤ v.totalDeposited then
                  Except.ok { v with totalSpent := newSpent }
                else Except.error EphemeralVaultError.InsufficientVaultBalance
          else Except.error EphemeralVaultError.InvalidDelegate
        else Except.error EphemeralVaultError.DelegationRevoked
      else Except.error EphemeralVaultError.InvalidDelegationAccount

/-- Instruction `revoke_access` of `lib.rs`: fails with `VaultInactive` if
the vault is already inactive; otherwise sets `is_active = false`, sets
`delegation.revoked_at = some now`, and sweeps the vault lamports above
the rent-exempt minimum back to the parent.  Returns the updated vault,
delegation, vault lamports and parent lamports. -/
def revoke_access (now : Int) (minBalance : Nat) (v : EphemeralVault)
    (d : VaultDelegation) (vaultLamports parentLamports : Nat) :
    Except EphemeralVaultError
      (EphemeralVault × VaultDelegation × Nat × Nat) :=
  match ensure_vault_not_already_inactive v with
  | Except.error e => Except.error e
  | Except.ok _ =>
      let v2 := { v with isActive := false }
      let d2 := { d with revokedAt := some now }
      if minBalance < vaultLamports then
        match checkedSubU64 vaultLamports minBalance with
        | none => Except.error EphemeralVaultError.MathOverflow
        | some amount =>
            Except.ok (v2, d2, vaultLamports - amount, parentLamports + amount)
      else Except.ok (v2, d2, vaultLamports, parentLamports)

/-- `MAX_CLEANUP_REWARD_LAMPORTS` of `cleanup_vault` in `lib.rs`. -/
def MAX_CLEANUP_REWARD_LAMPORTS : Nat := 10000

/-- Result of a successful `cleanup_vault`: the record contents at the
moment the account is closed, the lamport balances after both the in-body
transfers and the Anchor `close = parent` refund (which moves the
remaining vault lamports to the parent and destroys the record), the
amount transferred to the cleaner (`reward`) and to the parent in the
instruction body (`to_parent`). -/
structure CleanupOutcome where
  vaultFinal : EphemeralVault
  parentLamports : Nat
  cleanerLamports : Nat
  rewardPaid : Nat
  toParentPaid : Nat
deriving DecidableEq

/-- Instruction `cleanup_vault` of `lib.rs`:
`require!(now >= session_expiry, SessionNotExpired)`; if still active,
deactivate; if the balance exceeds the rent-exempt minimum, pay the
cleaner `reward = min(available, MAX_CLEANUP_REWARD_LAMPORTS)` and the
parent `available - reward`; finally the `close = parent` account
constraint refunds the remaining vault lamports to the parent and
destroys the record. -/
def cleanup_vault (now : Int) (minBalance : Nat) (v : EphemeralVault)
    (vaultLamports parentLamports cleanerLamports : Nat) :
    Except EphemeralVaultError CleanupOutcome :=
  if now ≥ v.sessionExpiry then
    let v2 := if v.isActive then { v with isActive := false } else v
    if minBalance < vaultLamports then
      match checkedSubU64 vaultLamports minBalance with
      | none => Except.error EphemeralVaultError.MathOverflow
      | some available =>
          let reward := min available MAX_CLEANUP_REWARD_LAMPORTS
          match checkedSubU64 available reward with
          | none => Except.error EphemeralVaultError.MathOverflow
          | some toParent =>
              Except.ok
                { vaultFinal := v2
                  parentLamports :=
                    parentLamports + toParent + (vaultLamports - available)
                  cleanerLamports := cleanerLamports + reward
                  rewardPaid := reward
                  toParentPaid := toParent }
    else
      Except.ok
        { vaultFinal := v2
          parentLamports := parentLamports + vaultLamports
          cleanerLamports := cleanerLamports
          rewardPaid := 0
          toParentPaid := 0 }
  else Except.error EphemeralVaultError.SessionNotExpired

/-- The per-vault slice of ledger state: the vault account (destroyed =
`none`), its delegation account, and the lamport balances of the vault,
parent and cleaner accounts.  `vaultKey` is the vault account's address. -/
structure Ledger where
  vaultKey : Nat
  vault : Option EphemeralVault
  delegation : VaultDelegation
  vaultLamports : Nat
  parentLamports : Nat
  cleanerLamports : Nat
deriving DecidableEq

/-- One ledger transaction against an existing vault.  `now` is the clock
value at execution time; `minBalance` the rent-exempt minimum. -/
inductive VaultOp where
  | autoDeposit (now : Int) (amount : Nat)
  | executeTrade (now : Int) (signer : Nat) (feePaid : Nat)
  | revokeAccess (now : Int) (minBalance : Nat)
  | cleanupVault (now : Int) (minBalance : Nat)
deriving DecidableEq

/-- Applies one transaction to the ledger.  A transaction against a
destroyed vault, or one whose instruction handler errors, is rejected by
the execution environment atomically: the state is unchanged.  On a
successful `auto_deposit_for_trade` the system-program transfer moves the
amount from parent to vault (failing, and hence aborting, when the parent
balance is insufficient); a successful `cleanup_vault` closes the vault
account. -/
def stepLedger (s : Ledger) (op : VaultOp) : Ledger :=
  match s.vault with
  | none => s
  | some v =>
      match op with
      | VaultOp.autoDeposit now amt =>
          match auto_deposit_for_trade now v amt with
          | Except.ok v2 =>
              if amt ≤ s.parentLamports then
                { s with
                    vault := some v2
                    vaultLamports := s.vaultLamports + amt
                    parentLamports := s.parentLamports - amt }
              else s
          | Except.error _ => s
      | VaultOp.executeTrade now signer fee =>
          match execute_trade now s.vaultKey v s.delegation signer fee with
          | Except.ok v2 => { s with vault := some v2 }
          | Except.error _ => s
      | VaultOp.revokeAccess now minB =>
          match revoke_access now minB v s.delegation s.vaultLamports
              s.parentLamports with
          | Except.ok (v2, d2, vl, pl) =>
              { s with
                  vault := some v2
                  delegation := d2
                  vaultLamports := vl
                  parentLamports := pl }
          | Except.error _ => s
      | VaultOp.cleanupVault now minB =>
          match cleanup_vault now minB v s.vaultLamports s.parentLamports
              s.cleanerLamports with
          | Except.ok r =>
              { s with
                  vault := none
                  vaultLamports := 0
                  parentLamports := r.parentLamports
                  cleanerLamports := r.cleanerLamports }
          | Except.error _ => s

/-- Runs a sequence of ledger transactions. -/
def runLedger (s : Ledger) (ops : List VaultOp) : Ledger :=
  ops.foldl stepLedger s

/-- The custody invariant of the vault record:
`total_spent ≤ total_deposited ≤ max_deposit`. -/
def vaultInv (v : EphemeralVault) : Prop :=
  v.totalSpent ≤ v.totalDeposited ∧ v.totalDeposited ≤ v.maxDeposit

instance (v : EphemeralVault) : Decidable (vaultInv v) := by
  unfold vaultInv; infer_instance

/-- The custody invariant lifted to the ledger: it holds of the vault
record whenever the record still exists. -/
def ledgerInv (s : Ledger) : Prop :=
  ∀ v, s.vault = some v → vaultInv v

/-- Priority tiers of the backend fee estimator
(`PriorityLevel` in `backend/src/auto_deposit.rs`). -/
inductive PriorityLevel where
  | Low
  | Medium
  | High
deriving DecidableEq

/-- `AutoDepositCalculator::estimate_fee_per_trade` of
`backend/src/auto_deposit.rs`: 5_000 / 10_000 / 25_000 lamports. -/
def estimate_fee_per_trade : PriorityLevel → Nat
  | PriorityLevel.Low => 5000
  | PriorityLevel.Medium => 10000
  | PriorityLevel.High => 25000

/-- `AutoDepositCalculator::compute_deposit_for_trades` of
`backend/src/auto_deposit.rs`: `num_trades.checked_mul(per_trade)`,
`none` modelling the "fee calculation overflow" error. -/
def compute_deposit_for_trades (numTrades : Nat) (p : PriorityLevel) :
    Option Nat :=
  checkedMulU64 numTrades (estimate_fee_per_trade p)

/-- Session lifecycle states of the mirror
(`SessionStatus` in `backend/src/session_manager.rs`). -/
inductive SessionStatus where
  | Created
  | Active
  | Revoked
  | Expired
  | Cleaned
deriving DecidableEq

/-- A mirror row (`Session` / the `sessions` table row in
`backend/src/session_manager.rs`).  Timestamps are modelled as `Int`,
pubkeys as `Nat`, the UUID as `Nat`. -/
structure Session where
  id : Nat
  parentWallet : Nat
  ephemeralWallet : Nat
  vaultPubkey : Option Nat
  status : SessionStatus
  sessionStart : Int
  sessionExpiry : Int
  lastActivity : Int
  maxDeposit : Nat
  totalDeposited : Nat
  totalSpent : Nat
deriving DecidableEq

/-- `SessionManager::mark_active` of `backend/src/session_manager.rs`,
applied to one row of the `sessions` table.  The SQL statement is
`UPDATE sessions SET status = ACTIVE, vault_pubkey = $2, last_activity = $3
WHERE id = $1`: the `WHERE` clause filters on the id only, so a row whose
id matches is updated regardless of its current `status`. -/
def mark_active (sessionId : Nat) (vaultPubkey : Nat) (now : Int)
    (s : Session) : Session :=
  if s.id = sessionId then
    { s with
        status := SessionStatus.Active
        vaultPubkey := some vaultPubkey
        lastActivity := now }
  else s

/-- The fixed key-derivation salt of the custody codec
(`b"evs-key-salt"` in `backend/src/transaction_signer.rs`), as bytes. -/
def EVS_KEY_SALT : List Nat :=
  [101, 118, 115, 45, 107, 101, 121, 45, 115, 97, 108, 116]

/-- The fixed all-zero 12-byte AEAD nonce of the custody codec
(`[0u8; 12]` in `backend/src/transaction_signer.rs`). -/
def ZERO_NONCE : List Nat := List.replicate 12 0

/-- The general shape of the custody-codec sealing path: derive a key from
a salt and the key-encryption secret, seal the plaintext under that key
and an explicit nonce, base64-encode the result.  `pbkdf2Derive`,
`aesGcmSeal` and `b64Encode` are the deterministic primitives supplied by
the `ring` and `base64` crates (external libraries), taken as parameters
of the embedding. -/
def sealWithParams (pbkdf2Derive : List Nat → List Nat → List Nat)
    (aesGcmSeal : List Nat → List Nat → List Nat → List Nat)
    (b64Encode : List Nat → List Nat)
    (salt nonce : List Nat) (keypairBytes kek : List Nat) : List Nat :=
  b64Encode (aesGcmSeal (pbkdf2Derive salt kek) nonce keypairBytes)

/-- `encrypt_keypair` of `backend/src/transaction_signer.rs`: PBKDF2 with
the fixed deployment-wide salt `EVS_KEY_SALT`, AES-256-GCM sealing with
the fixed nonce `ZERO_NONCE`, base64 without padding.  The function takes
no randomness: both the salt and the nonce are compile-time constants of
the source. -/
def encrypt_keypair (pbkdf2Derive : List Nat → List Nat → List Nat)
    (aesGcmSeal : List Nat → List Nat → List Nat → List Nat)
    (b64Encode : List Nat → List Nat)
    (keypairBytes kek : List Nat) : List Nat :=
  sealWithParams pbkdf2Derive aesGcmSeal b64Encode EVS_KEY_SALT ZERO_NONCE
    keypairBytes kek

/-- A successful `create_vault` has zero totals and an active flag. -/
lemma create_vault_ok_fields (now : Int) (parent eph : Nat) (dur : Int)
    (maxD bump : Nat) (v0 : EphemeralVault)
    (h : create_vault now parent eph dur maxD bump = Except.ok v0) :
    v0.totalDeposited = 0 ∧ v0.totalSpent = 0 ∧ v0.isActive = true := by
  unfold create_vault at h
  cases hm : checkedAddI64 now dur with
  | none => rw [hm] at h; cases h
  | some expiry =>
      rw [hm] at h
      cases h
      exact ⟨rfl, rfl, rfl⟩

/-- Success characterisation of `auto_deposit_for_trade`. -/
lemma auto_deposit_ok_iff (now : Int) (v v2 : EphemeralVault) (amt : Nat) :
    auto_deposit_for_trade now v amt = Except.ok v2 ↔
      (v.isActive = true ∧ now ≤ v.sessionExpiry ∧
       v.totalDeposited + amt < U64_MOD ∧
       v.totalDeposited + amt ≤ v.maxDeposit ∧
       { v with totalDeposited := v.totalDeposited + amt } = v2) := by
  unfold auto_deposit_for_trade ensure_vault_active_and_not_expired checkedAddU64
  by_cases hA : v.isActive = true <;>
  by_cases hE : now ≤ v.sessionExpiry <;>
  by_cases hO : v.totalDeposited + amt < U64_MOD <;>
  by_cases hM : v.totalDeposited + amt ≤ v.maxDeposit <;>
  simp [hA, hE, hO, hM]

/-- Success characterisation of `execute_trade`. -/
lemma execute_trade_ok_iff (now : Int) (k : Nat) (v v2 : EphemeralVault)
    (d : VaultDelegation) (sgn fee : Nat) :
    execute_trade now k v d sgn fee = Except.ok v2 ↔
      (v.isActive = true ∧ now ≤ v.sessionExpiry ∧ d.vault = k ∧
       d.revokedAt = none ∧ d.delegate = sgn ∧
       v.totalSpent + fee < U64_MOD ∧
       v.totalSpent + fee ≤ v.totalDeposited ∧
       { v with totalSpent := v.totalSpent + fee } = v2) := by
  unfold execute_trade ensure_vault_active_and_not_expired checkedAddU64
  by_cases hA : v.isActive = true <;>
  by_cases hE : now ≤ v.sessionExpiry <;>
  by_cases hK : d.vault = k <;>
  by_cases hR : d.revokedAt = none <;>
  by_cases hD : d.delegate = sgn <;>
  by_cases hO : v.totalSpent + fee < U64_MOD <;>
  by_cases hM : v.totalSpent + fee ≤ v.totalDeposited <;>
  simp [hA, hE, hK, hR, hD, hO, hM, Option.isNone_iff_eq_none]

/-- A successful `revoke_access` only deactivates the vault record and
stamps the delegation: the totals are untouched. -/
lemma revoke_access_ok_vault (now : Int) (minB : Nat) (v v2 : EphemeralVault)
    (d d2 : VaultDelegation) (vl pl vl2 pl2 : Nat)
    (h : revoke_access now minB v d vl pl = Except.ok (v2, d2, vl2, pl2)) :
    v2 = { v with isActive := false } ∧
    d2 = { d with revokedAt := some now } ∧ v.isActive = true := by
  unfold revoke_access ensure_vault_not_already_inactive checkedSubU64 at h
  by_cases hA : v.isActive = true <;>
  by_cases hB : minB < vl <;>
  simp [hA, hB, Nat.le_of_lt] at h
  · exact ⟨h.1.symm, h.2.1.symm, hA⟩
  · exact ⟨h.1.symm, h.2.1.symm, hA⟩

/-- `cleanup_vault` before expiry fails with `SessionNotExpired`. -/
lemma cleanup_vault_not_expired (now : Int) (minB : Nat) (v : EphemeralVault)
    (vl pl cl : Nat) (h : now < v.sessionExpiry) :
    cleanup_vault now minB v vl pl cl =
      Except.error EphemeralVaultError.SessionNotExpired := by
  have hne : ¬ (v.sessionExpiry ≤ now) := by omega
  simp [cleanup_vault, ge_iff_le, hne]

/-- `cleanup_vault` at or after expiry always succeeds, with the record
deactivated at close time. -/
lemma cleanup_vault_expired_ok (now : Int) (minB : Nat) (v : EphemeralVault)
    (vl pl cl : Nat) (hE : v.sessionExpiry ≤ now) :
    ∃ r, cleanup_vault now minB v vl pl cl = Except.ok r ∧
      r.vaultFinal.isActive = false := by
  unfold cleanup_vault checkedSubU64
  by_cases hB : minB < vl
  · have h1 : minB ≤ vl := Nat.le_of_lt hB
    have h2 : min (vl - minB) MAX_CLEANUP_REWARD_LAMPORTS ≤ vl - minB :=
      Nat.min_le_left _ _
    simp [ge_iff_le, hE, hB, h1, h2]
    by_cases hA : v.isActive = true <;> simp [hA]
  · simp [ge_iff_le, hE, hB]
    by_cases hA : v.isActive = true <;> simp [hA]

/-- The cleaner reward of a successful `cleanup_vault` never exceeds
`MAX_CLEANUP_REWARD_LAMPORTS`. -/
lemma cleanup_vault_reward_le (now : Int) (minB : Nat) (v : EphemeralVault)
    (vl pl cl : Nat) (r : CleanupOutcome)
    (h : cleanup_vault now minB v vl pl cl = Except.ok r) :
    r.rewardPaid ≤ MAX_CLEANUP_REWARD_LAMPORTS := by
  unfold cleanup_vault checkedSubU64 at h
  by_cases hE : v.sessionExpiry ≤ now
  · by_cases hB : minB < vl
    · have h1 : minB ≤ vl := Nat.le_of_lt hB
      have h2 : min (vl - minB) MAX_CLEANUP_REWARD_LAMPORTS ≤ vl - minB :=
        Nat.min_le_left _ _
      simp [ge_iff_le, hE, hB, h1, h2] at h
      rw [← h]
      exact Nat.min_le_right _ _
    · simp [ge_iff_le, hE, hB] at h
      rw [← h]
      exact Nat.zero_le _
  · simp [ge_iff_le, hE] at h

/-- The exact outcome of `cleanup_vault` at or after expiry on a vault
holding `A > 0` lamports above the rent floor `minB`. -/
lemma cleanup_vault_eq_above_floor (now : Int) (minB : Nat)
    (v : EphemeralVault) (A pl cl : Nat) (hE : v.sessionExpiry ≤ now)
    (hA : 0 < A) :
    cleanup_vault now minB v (minB + A) pl cl =
      Except.ok
        { vaultFinal := if v.isActive then { v with isActive := false } else v
          parentLamports := pl + (A - min A MAX_CLEANUP_REWARD_LAMPORTS) + minB
          cleanerLamports := cl + min A MAX_CLEANUP_REWARD_LAMPORTS
          rewardPaid := min A MAX_CLEANUP_REWARD_LAMPORTS
          toParentPaid := A - min A MAX_CLEANUP_REWARD_LAMPORTS } := by
  unfold cleanup_vault checkedSubU64
  have h1 : minB ≤ minB + A := Nat.le_add_right _ _
  have h3 : minB < minB + A := by omega
  have h4 : minB + A - minB = A := by omega
  rw [h4]  -- may fail before reduction; handled below if so
  have h2 : min A MAX_CLEANUP_REWARD_LAMPORTS ≤ A := Nat.min_le_left _ _
  simp [ge_iff_le, hE, h1, h2, h3, h4]

/-- A rejected `auto_deposit_for_trade` transaction leaves the ledger
unchanged. -/
lemma stepLedger_autoDeposit_error (s : Ledger) (v : EphemeralVault)
    (now : Int) (amt : Nat) (e : EphemeralVaultError) (hv : s.vault = some v)
    (h : auto_deposit_for_trade now v amt = Except.error e) :
    stepLedger s (VaultOp.autoDeposit now amt) = s := by
  simp [stepLedger, hv, h]

/-- A rejected `execute_trade` transaction leaves the ledger unchanged. -/
lemma stepLedger_executeTrade_error (s : Ledger) (v : EphemeralVault)
    (now : Int) (sgn fee : Nat) (e : EphemeralVaultError)
    (hv : s.vault = some v)
    (h : execute_trade now s.vaultKey v s.delegation sgn fee =
      Except.error e) :
    stepLedger s (VaultOp.executeTrade now sgn fee) = s := by
  simp [stepLedger, hv, h]

/-- A rejected `cleanup_vault` transaction leaves the ledger unchanged. -/
lemma stepLedger_cleanup_error (s : Ledger) (v : EphemeralVault)
    (now : Int) (minB : Nat) (e : EphemeralVaultError) (hv : s.vault = some v)
    (h : cleanup_vault now minB v s.vaultLamports s.parentLamports
      s.cleanerLamports = Except.error e) :
    stepLedger s (VaultOp.cleanupVault now minB) = s := by
  simp [stepLedger, hv, h]

/-- An `auto_deposit_for_trade` that would push `total_deposited` above
`max_deposit` is rejected and the ledger is unchanged. -/
lemma stepLedger_autoDeposit_rejected (s : Ledger) (v : EphemeralVault)
    (now : Int) (amt : Nat) (hv : s.vault = some v)
    (hgt : v.maxDeposit < v.totalDeposited + amt) :
    stepLedger s (VaultOp.autoDeposit now amt) = s := by
  cases hres : auto_deposit_for_trade now v amt with
  | ok v2 =>
      rcases (auto_deposit_ok_iff now v v2 amt).1 hres with ⟨_, _, _, hM, _⟩
      omega
  | error e => exact stepLedger_autoDeposit_error s v now amt e hv hres

/-- An `execute_trade` that would push `total_spent` above
`total_deposited` is rejected and the ledger is unchanged. -/
lemma stepLedger_executeTrade_rejected (s : Ledger) (v : EphemeralVault)
    (now : Int) (sgn fee : Nat) (hv : s.vault = some v)
    (hgt : v.totalDeposited < v.totalSpent + fee) :
    stepLedger s (VaultOp.executeTrade now sgn fee) = s := by
  cases hres : execute_trade now s.vaultKey v s.delegation sgn fee with
  | ok v2 =>
      rcases (execute_trade_ok_iff now s.vaultKey v v2 s.delegation sgn
        fee).1 hres with ⟨_, _, _, _, _, _, hM, _⟩
      omega
  | error e => exact stepLedger_executeTrade_error s v now sgn fee e hv hres

/-- One ledger transaction preserves the custody invariant. -/
lemma stepLedger_inv (s : Ledger) (op : VaultOp) (h : ledgerInv s) :
    ledgerInv (stepLedger s op) := by
  cases hv : s.vault with
  | none =>
      have hs : stepLedger s op = s := by cases op <;> simp [stepLedger, hv]
      rw [hs]; exact h
  | some v =>
      have hinv : vaultInv v := h v hv
      cases op with
      | autoDeposit now amt =>
          cases hres : auto_deposit_for_trade now v amt with
          | error e => rw [stepLedger_autoDeposit_error s v now amt e hv hres]; exact h
          | ok v2 =>
              rcases (auto_deposit_ok_iff now v v2 amt).1 hres with
                ⟨_, _, _, hM, hv2⟩
              by_cases hPL : amt ≤ s.parentLamports
              · intro w hw
                simp [stepLedger, hv, hres, hPL] at hw
                rw [← hw, ← hv2]
                unfold vaultInv at hinv ⊢
                simp only
                omega
              · have hs : stepLedger s (VaultOp.autoDeposit now amt) = s := by
                  simp [stepLedger, hv, hres, hPL]
                rw [hs]; exact h
      | executeTrade now sgn fee =>
          cases hres : execute_trade now s.vaultKey v s.delegation sgn fee with
          | error e =>
              rw [stepLedger_executeTrade_error s v now sgn fee e hv hres]
              exact h
          | ok v2 =>
              rcases (execute_trade_ok_iff now s.vaultKey v v2 s.delegation
                sgn fee).1 hres with ⟨_, _, _, _, _, _, hM, hv2⟩
              intro w hw
              simp [stepLedger, hv, hres] at hw
              rw [← hw, ← hv2]
              unfold vaultInv at hinv ⊢
              simp only
              omega
      | revokeAccess now minB =>
          cases hres : revoke_access now minB v s.delegation s.vaultLamports
              s.parentLamports with
          | error e =>
              have hs : stepLedger s (VaultOp.revokeAccess now minB) = s := by
                simp [stepLedger, hv, hres]
              rw [hs]; exact h
          | ok q =>
              obtain ⟨v2, d2, vl2, pl2⟩ := q
              rcases revoke_access_ok_vault now minB v v2 s.delegation d2
                s.vaultLamports s.parentLamports vl2 pl2 hres with ⟨hveq, _, _⟩
              intro w hw
              simp [stepLedger, hv, hres] at hw
              rw [← hw, hveq]
              unfold vaultInv at hinv ⊢
              simp only
              omega
      | cleanupVault now minB =>
          cases hres : cleanup_vault now minB v s.vaultLamports
              s.parentLamports s.cleanerLamports with
          | error e =>
              rw [stepLedger_cleanup_error s v now minB e hv hres]; exact h
          | ok r =>
              intro w hw
              simp [stepLedger, hv, hres] at hw

/-- A sequence of ledger transactions preserves the custody invariant. -/
lemma runLedger_inv (ops : List VaultOp) (s : Ledger) (h : ledgerInv s) :
    ledgerInv (runLedger s ops) := by
  induction ops generalizing s with
  | nil => exact h
  | cons op rest ih => exact ih (stepLedger s op) (stepLedger_inv s op h)

/-- The vault record, if it still exists, is inactive. -/
def ledgerDeactivated (s : Ledger) : Prop :=
  ∀ v, s.vault = some v → v.isActive = false

/-- One ledger transaction preserves deactivation: no instruction ever
sets `is_active` back to `true`. -/
lemma stepLedger_deactivated (s : Ledger) (op : VaultOp)
    (h : ledgerDeactivated s) : ledgerDeactivated (stepLedger s op) := by
  cases hv : s.vault with
  | none =>
      have hs : stepLedger s op = s := by cases op <;> simp [stepLedger, hv]
      rw [hs]; exact h
  | some v =>
      have hva : v.isActive = false := h v hv
      cases op with
      | autoDeposit now amt =>
          cases hres : auto_deposit_for_trade now v amt with
          | error e =>
              rw [stepLedger_autoDeposit_error s v now amt e hv hres]; exact h
          | ok v2 =>
              rcases (auto_deposit_ok_iff now v v2 amt).1 hres with ⟨hA, _⟩
              rw [hva] at hA
              cases hA
      | executeTrade now sgn fee =>
          cases hres : execute_trade now s.vaultKey v s.delegation sgn fee with
          | error e =>
              rw [stepLedger_executeTrade_error s v now sgn fee e hv hres]
              exact h
          | ok v2 =>
              rcases (execute_trade_ok_iff now s.vaultKey v v2 s.delegation
                sgn fee).1 hres with ⟨hA, _⟩
              rw [hva] at hA
              cases hA
      | revokeAccess now minB =>
          cases hres : revoke_access now minB v s.delegation s.vaultLamports
              s.parentLamports with
          | error e =>
              have hs : stepLedger s (VaultOp.revokeAccess now minB) = s := by
                simp [stepLedger, hv, hres]
              rw [hs]; exact h
          | ok q =>
              obtain ⟨v2, d2, vl2, pl2⟩ := q
              rcases revoke_access_ok_vault now minB v v2 s.delegation d2
                s.vaultLamports s.parentLamports vl2 pl2 hres with ⟨_, _, hA⟩
              rw [hva] at hA
              cases hA
      | cleanupVault now minB =>
          cases hres : cleanup_vault now minB v s.vaultLamports
              s.parentLamports s.cleanerLamports with
          | error e =>
              rw [stepLedger_cleanup_error s v now minB e hv hres]; exact h
          | ok r =>
              intro w hw
              simp [stepLedger, hv, hres] at hw

/-- A sequence of ledger transactions preserves deactivation. -/
lemma runLedger_deactivated (ops : List VaultOp) (s : Ledger)
    (h : ledgerDeactivated s) : ledgerDeactivated (runLedger s ops) := by
  induction ops generalizing s with
  | nil => exact h
  | cons op rest ih =>
      exact ih (stepLedger s op) (stepLedger_deactivated s op h)

/-- A freshly created vault: parent 1, ephemeral wallet 2, window
`[0, 100]`, cap 1000.  Equals `create_vault 0 1 2 100 1000 255`. -/
def vaultSample : EphemeralVault :=
  { parentWallet := 1
    ephemeralWallet := 2
    sessionStart := 0
    sessionExpiry := 100
    isActive := true
    totalDeposited := 0
    totalSpent := 0
    maxDeposit := 1000
    bump := 255 }

/-- A deactivated vault record with non-zero totals. -/
def vaultInactiveSample : EphemeralVault :=
  { parentWallet := 1
    ephemeralWallet := 2
    sessionStart := 0
    sessionExpiry := 100
    isActive := false
    totalDeposited := 50
    totalSpent := 10
    maxDeposit := 1000
    bump := 255 }

/-- An unrevoked delegation for the vault at address 7, delegate 3. -/
def delegationSample : VaultDelegation :=
  { vault := 7
    delegate := 3
    approvedAt := 0
    revokedAt := none
    bump := 1 }

/-- C1: starting from any vault produced by `create_vault`, every sequence
of ledger transactions (`auto_deposit_for_trade`, `execute_trade`,
`revoke_access`, `cleanup_vault`) keeps the custody invariant
`total_spent ≤ total_deposited ≤ max_deposit` at every observable state;
moreover an `auto_deposit_for_trade` that would push `total_deposited`
above `max_deposit`, and an `execute_trade` that would push `total_spent`
above `total_deposited`, are rejected with the ledger state — in
particular both totals — unchanged. -/
theorem claim_C1_custody_invariant (now : Int) (parent eph : Nat)
    (dur : Int) (maxD bump : Nat) (v0 : EphemeralVault)
    (h : create_vault now parent eph dur maxD bump = Except.ok v0)
    (vk : Nat) (d0 : VaultDelegation) (vl pl cl : Nat) (ops : List VaultOp) :
    ledgerInv (runLedger ⟨vk, some v0, d0, vl, pl, cl⟩ ops)
    ∧ (∀ s v now2 amt, s.vault = some v →
        v.maxDeposit < v.totalDeposited + amt →
        stepLedger s (VaultOp.autoDeposit now2 amt) = s)
    ∧ (∀ s v now2 sgn fee, s.vault = some v →
        v.totalDeposited < v.totalSpent + fee →
        stepLedger s (VaultOp.executeTrade now2 sgn fee) = s) := by
  refine ⟨?_, ?_, ?_⟩
  · apply runLedger_inv
    intro w hw
    rcases create_vault_ok_fields now parent eph dur maxD bump v0 h with
      ⟨h1, h2, _⟩
    simp only at hw
    cases hw
    unfold vaultInv
    omega
  · intro s v now2 amt hv hgt
    exact stepLedger_autoDeposit_rejected s v now2 amt hv hgt
  · intro s v now2 sgn fee hv hgt
    exact stepLedger_executeTrade_rejected s v now2 sgn fee hv hgt

/-- Witness for C1 at a concrete vault and transaction sequence. -/
theorem claim_C1_custody_invariant_witness :
    ledgerInv (runLedger ⟨7, some vaultSample, delegationSample, 5000,
      100000, 0⟩ [VaultOp.autoDeposit 10 600, VaultOp.executeTrade 20 3 400]) :=
  (claim_C1_custody_invariant 0 1 2 100 1000 255 vaultSample (by rfl) 7
    delegationSample 5000 100000 0
    [VaultOp.autoDeposit 10 600, VaultOp.executeTrade 20 3 400]).1

/-- C2: `execute_trade` succeeds exactly when the vault is active and not
past expiry, the delegation names this vault, is unrevoked, the signer is
the delegate, and the checked addition `total_spent + fee_paid` neither
overflows nor exceeds `total_deposited`; on success `total_spent` grows by
exactly `fee_paid`, and each failing condition (in source order) yields
its categorical error, with a rejected transaction leaving the ledger
unchanged. -/
theorem claim_C2_execute_trade_spec (now : Int) (k : Nat)
    (v : EphemeralVault) (d : VaultDelegation) (sgn fee : Nat) :
    (∀ v2, execute_trade now k v d sgn fee = Except.ok v2 ↔
       (v.isActive = true ∧ now ≤ v.sessionExpiry ∧ d.vault = k ∧
        d.revokedAt = none ∧ d.delegate = sgn ∧
        v.totalSpent + fee < U64_MOD ∧
        v.totalSpent + fee ≤ v.totalDeposited ∧
        { v with totalSpent := v.totalSpent + fee } = v2))
    ∧ (v.isActive = false →
        execute_trade now k v d sgn fee =
          Except.error EphemeralVaultError.VaultInactive)
    ∧ (v.isActive = true → v.sessionExpiry < now →
        execute_trade now k v d sgn fee =
          Except.error EphemeralVaultError.SessionExpired)
    ∧ (v.isActive = true → now ≤ v.sessionExpiry → d.vault ≠ k →
        execute_trade now k v d sgn fee =
          Except.error EphemeralVaultError.InvalidDelegationAccount)
    ∧ (v.isActive = true → now ≤ v.sessionExpiry → d.vault = k →
        d.revokedAt ≠ none →
        execute_trade now k v d sgn fee =
          Except.error EphemeralVaultError.DelegationRevoked)
    ∧ (v.isActive = true → now ≤ v.sessionExpiry → d.vault = k →
        d.revokedAt = none → d.delegate ≠ sgn →
        execute_trade now k v d sgn fee =
          Except.error EphemeralVaultError.InvalidDelegate)
    ∧ (v.isActive = true → now ≤ v.sessionExpiry → d.vault = k →
        d.revokedAt = none → d.delegate = sgn →
        U64_MOD ≤ v.totalSpent + fee →
        execute_trade now k v d sgn fee =
          Except.error EphemeralVaultError.MathOverflow)
    ∧ (v.isActive = true → now ≤ v.sessionExpiry → d.vault = k →
        d.revokedAt = none → d.delegate = sgn →
        v.totalSpent + fee < U64_MOD →
        v.totalDeposited < v.totalSpent + fee →
        execute_trade now k v d sgn fee =
          Except.error EphemeralVaultError.InsufficientVaultBalance)
    ∧ (∀ s e, s.vault = some v →
        execute_trade now s.vaultKey v s.delegation sgn fee =
          Except.error e →
        stepLedger s (VaultOp.executeTrade now sgn fee) = s) := by
  refine ⟨fun v2 => execute_trade_ok_iff now k v v2 d sgn fee,
    ?_, ?_, ?_, ?_, ?_, ?_, ?_, ?_⟩
  · intro hA
    simp [execute_trade, ensure_vault_active_and_not_expired, hA]
  · intro hA hLt
    have hn : ¬ (now ≤ v.sessionExpiry) := by omega
    simp [execute_trade, ensure_vault_active_and_not_expired, hA, hn]
  · intro hA hE hK
    simp [execute_trade, ensure_vault_active_and_not_expired, hA, hE, hK]
  · intro hA hE hK hR
    simp [execute_trade, ensure_vault_active_and_not_expired, hA, hE, hK,
      Option.isNone_iff_eq_none, hR]
  · intro hA hE hK hR hD
    simp [execute_trade, ensure_vault_active_and_not_expired, hA, hE, hK,
      Option.isNone_iff_eq_none, hR, hD]
  · intro hA hE hK hR hD hO
    have hn : ¬ (v.totalSpent + fee < U64_MOD) := by omega
    simp [execute_trade, ensure_vault_active_and_not_expired, checkedAddU64,
      hA, hE, hK, Option.isNone_iff_eq_none, hR, hD, hn]
  · intro hA hE hK hR hD hO hM
    have hn : ¬ (v.totalSpent + fee ≤ v.totalDeposited) := by omega
    simp [execute_trade, ensure_vault_active_and_not_expired, checkedAddU64,
      hA, hE, hK, Option.isNone_iff_eq_none, hR, hD, hO, hn]
  · intro s e hv herr
    exact stepLedger_executeTrade_error s v now sgn fee e hv herr

/-- Witness for C2: a trade against an inactive vault is rejected with
`VaultInactive`. -/
theorem claim_C2_execute_trade_spec_witness :
    execute_trade 10 7 vaultInactiveSample delegationSample 3 5 =
      Except.error EphemeralVaultError.VaultInactive :=
  (claim_C2_execute_trade_spec 10 7 vaultInactiveSample delegationSample
    3 5).2.1 rfl

/-- C3: `auto_deposit_for_trade` fails with `VaultInactive` on an inactive
vault, `SessionExpired` past expiry, `MathOverflow` when
`total_deposited + amount` overflows a u64, and `OverDeposit` when it
would exceed `max_deposit` (conditions checked in source order); a
rejected transaction leaves the ledger — in particular `total_deposited`
— unchanged, and on success `total_deposited` grows by exactly the
deposited amount. -/
theorem claim_C3_auto_deposit_spec (now : Int) (v : EphemeralVault)
    (amt : Nat) :
    (v.isActive = false →
        auto_deposit_for_trade now v amt =
          Except.error EphemeralVaultError.VaultInactive)
    ∧ (v.isActive = true → v.sessionExpiry < now →
        auto_deposit_for_trade now v amt =
          Except.error EphemeralVaultError.SessionExpired)
    ∧ (v.isActive = true → now ≤ v.sessionExpiry →
        U64_MOD ≤ v.totalDeposited + amt →
        auto_deposit_for_trade now v amt =
          Except.error EphemeralVaultError.MathOverflow)
    ∧ (v.isActive = true → now ≤ v.sessionExpiry →
        v.totalDeposited + amt < U64_MOD →
        v.maxDeposit < v.totalDeposited + amt →
        auto_deposit_for_trade now v amt =
          Except.error EphemeralVaultError.OverDeposit)
    ∧ (∀ v2, auto_deposit_for_trade now v amt = Except.ok v2 →
        v2.totalDeposited = v.totalDeposited + amt ∧
        v2.totalSpent = v.totalSpent ∧ v2.maxDeposit = v.maxDeposit)
    ∧ (∀ s e, s.vault = some v →
        auto_deposit_for_trade now v amt = Except.error e →
        stepLedger s (VaultOp.autoDeposit now amt) = s) := by
  refine ⟨?_, ?_, ?_, ?_, ?_, ?_⟩
  · intro hA
    simp [auto_deposit_for_trade, ensure_vault_active_and_not_expired, hA]
  · intro hA hLt
    have hn : ¬ (now ≤ v.sessionExpiry) := by omega
    simp [auto_deposit_for_trade, ensure_vault_active_and_not_expired, hA, hn]
  · intro hA hE hO
    have hn : ¬ (v.totalDeposited + amt < U64_MOD) := by omega
    simp [auto_deposit_for_trade, ensure_vault_active_and_not_expired,
      checkedAddU64, hA, hE, hn]
  · intro hA hE hO hM
    have hn : ¬ (v.totalDeposited + amt ≤ v.maxDeposit) := by omega
    simp [auto_deposit_for_trade, ensure_vault_active_and_not_expired,
      checkedAddU64, hA, hE, hO, hn]
  · intro v2 hok
    rcases (auto_deposit_ok_iff now v v2 amt).1 hok with ⟨_, _, _, _, hv2⟩
    rw [← hv2]
    exact ⟨rfl, rfl, rfl⟩
  · intro s e hv herr
    exact stepLedger_autoDeposit_error s v now amt e hv herr

/-- Witness for C3: a deposit into an inactive vault is rejected with
`VaultInactive`. -/
theorem claim_C3_auto_deposit_spec_witness :
    auto_deposit_for_trade 10 vaultInactiveSample 5 =
      Except.error EphemeralVaultError.VaultInactive :=
  (claim_C3_auto_deposit_spec 10 vaultInactiveSample 5).1 rfl

/-- C4: `is_active` is set to `true` only by `create_vault`; once the
vault record is deactivated (by `revoke_access` or `cleanup_vault`), no
sequence of ledger transactions ever produces a reachable state in which
the record exists with `is_active = true` again. -/
theorem claim_C4_deactivation_permanent :
    (∀ (now : Int) (parent eph : Nat) (dur : Int) (maxD bump : Nat)
       (v0 : EphemeralVault),
        create_vault now parent eph dur maxD bump = Except.ok v0 →
        v0.isActive = true)
    ∧ (∀ (s : Ledger) (ops : List VaultOp), ledgerDeactivated s →
        ledgerDeactivated (runLedger s ops)) := by
  refine ⟨?_, ?_⟩
  · intro now parent eph dur maxD bump v0 h
    exact (create_vault_ok_fields now parent eph dur maxD bump v0 h).2.2
  · intro s ops h
    exact runLedger_deactivated ops s h

/-- Witness for C4: `create_vault` yields an active record, and a
transaction against a deactivated vault leaves it deactivated. -/
theorem claim_C4_deactivation_permanent_witness :
    vaultSample.isActive = true ∧ vaultInactiveSample.isActive = false :=
  ⟨claim_C4_deactivation_permanent.1 0 1 2 100 1000 255 vaultSample rfl,
   claim_C4_deactivation_permanent.2
     ⟨7, some vaultInactiveSample, delegationSample, 5000, 0, 0⟩
     [VaultOp.autoDeposit 10 5]
     (by intro w hw; cases hw; rfl)
     vaultInactiveSample (by rfl)⟩

/-- C5: `cleanup_vault` called before `session_expiry` always fails with
`SessionNotExpired` and, as a rejected transaction, leaves the vault
record and all balances unchanged; called at or after expiry it always
succeeds — even on a still-active vault — with the record deactivated at
close time. -/
theorem claim_C5_cleanup_expiry_gate (now : Int) (minB : Nat)
    (v : EphemeralVault) (vl pl cl : Nat) :
    (now < v.sessionExpiry →
        cleanup_vault now minB v vl pl cl =
          Except.error EphemeralVaultError.SessionNotExpired)
    ∧ (now < v.sessionExpiry → ∀ s : Ledger, s.vault = some v →
        stepLedger s (VaultOp.cleanupVault now minB) = s)
    ∧ (v.sessionExpiry ≤ now →
        ∃ r, cleanup_vault now minB v vl pl cl = Except.ok r ∧
          r.vaultFinal.isActive = false) := by
  refine ⟨?_, ?_, ?_⟩
  · intro h
    exact cleanup_vault_not_expired now minB v vl pl cl h
  · intro h s hv
    exact stepLedger_cleanup_error s v now minB
      EphemeralVaultError.SessionNotExpired hv
      (cleanup_vault_not_expired now minB v s.vaultLamports s.parentLamports
        s.cleanerLamports h)
  · intro h
    exact cleanup_vault_expired_ok now minB v vl pl cl h

/-- Witness for C5: before expiry the cleanup is rejected with
`SessionNotExpired`; after expiry it succeeds on a still-active vault. -/
theorem claim_C5_cleanup_expiry_gate_witness :
    cleanup_vault 50 2000 vaultSample 5000 0 0 =
      Except.error EphemeralVaultError.SessionNotExpired ∧
    (∃ r, cleanup_vault 200 2000 vaultSample 5000 0 0 = Except.ok r ∧
      r.vaultFinal.isActive = false) :=
  ⟨(claim_C5_cleanup_expiry_gate 50 2000 vaultSample 5000 0 0).1 (by decide),
   (claim_C5_cleanup_expiry_gate 200 2000 vaultSample 5000 0 0).2.2
     (by decide)⟩

/-- C6: a successful `cleanup_vault` on a vault holding `A > 0` lamports
above the rent floor pays the cleaner exactly
`min A MAX_CLEANUP_REWARD_LAMPORTS` (with `MAX_CLEANUP_REWARD_LAMPORTS =
10000`), transfers exactly `A - min A MAX_CLEANUP_REWARD_LAMPORTS` to the
parent in the instruction body, refunds the rent floor to the parent via
the account close, and destroys the record; the reward of any successful
cleanup never exceeds `MAX_CLEANUP_REWARD_LAMPORTS`. -/
theorem claim_C6_cleanup_reward_cap (now : Int) (minB : Nat)
    (v : EphemeralVault) (A pl cl : Nat) (hE : v.sessionExpiry ≤ now)
    (hA : 0 < A) :
    (∃ r, cleanup_vault now minB v (minB + A) pl cl = Except.ok r ∧
       r.rewardPaid = min A MAX_CLEANUP_REWARD_LAMPORTS ∧
       r.toParentPaid = A - min A MAX_CLEANUP_REWARD_LAMPORTS ∧
       r.cleanerLamports = cl + min A MAX_CLEANUP_REWARD_LAMPORTS ∧
       r.parentLamports =
         pl + (A - min A MAX_CLEANUP_REWARD_LAMPORTS) + minB)
    ∧ (∀ vl2 r2, cleanup_vault now minB v vl2 pl cl = Except.ok r2 →
        r2.rewardPaid ≤ MAX_CLEANUP_REWARD_LAMPORTS)
    ∧ (∀ s : Ledger, s.vault = some v →
        (stepLedger s (VaultOp.cleanupVault now minB)).vault = none) := by
  refine ⟨?_, ?_, ?_⟩
  · exact ⟨_, cleanup_vault_eq_above_floor now minB v A pl cl hE hA,
      rfl, rfl, rfl, rfl⟩
  · intro vl2 r2 h2
    exact cleanup_vault_reward_le now minB v vl2 pl cl r2 h2
  · intro s hv
    rcases cleanup_vault_expired_ok now minB v s.vaultLamports
      s.parentLamports s.cleanerLamports hE with ⟨r, hok, _⟩
    simp [stepLedger, hv, hok]

/-- Witness for C6, the spec scenario: after expiry, a vault holding
12000 lamports above a 2000-lamport rent floor pays the cleaner 10000 and
the parent 2000. -/
theorem claim_C6_cleanup_reward_cap_witness :
    ∃ r, cleanup_vault 200 2000 vaultSample (2000 + 12000) 0 0 =
        Except.ok r ∧
      r.rewardPaid = min 12000 MAX_CLEANUP_REWARD_LAMPORTS ∧
      r.toParentPaid = 12000 - min 12000 MAX_CLEANUP_REWARD_LAMPORTS ∧
      r.cleanerLamports = 0 + min 12000 MAX_CLEANUP_REWARD_LAMPORTS ∧
      r.parentLamports =
        0 + (12000 - min 12000 MAX_CLEANUP_REWARD_LAMPORTS) + 2000 :=
  (claim_C6_cleanup_reward_cap 200 2000 vaultSample 12000 0 0 (by decide)
    (by decide)).1

/-- A mirror row whose session has been revoked. -/
def sessionRevokedSample : Session :=
  { id := 1
    parentWallet := 10
    ephemeralWallet := 11
    vaultPubkey := some 99
    status := SessionStatus.Revoked
    sessionStart := 0
    sessionExpiry := 100
    lastActivity := 50
    maxDeposit := 1000
    totalDeposited := 0
    totalSpent := 0 }

/-- C8 (code-bug evidence): `SessionManager::mark_active` filters only on
the session id, so applied to a row whose status is `Revoked` it still
overwrites the status with `Active` and replaces `vault_ref` — a stale or
replayed confirmation resurrects a revoked session instead of being
rejected or treated as a no-op. -/
theorem claim_C8_mark_active_resurrects_revoked :
    sessionRevokedSample.status = SessionStatus.Revoked ∧
    (mark_active 1 7 60 sessionRevokedSample).status =
      SessionStatus.Active ∧
    (mark_active 1 7 60 sessionRevokedSample).vaultPubkey = some 7 := by
  decide

/-- C9: the scheduled deposit is exactly `trade_count × per_trade_fee`
(checked multiplication, `none` on u64 overflow — never a clamped or
wrapped value), and the per-trade fees are strictly ordered
`Low < Medium < High`. -/
theorem claim_C9_deposit_computation :
    (∀ n p, n * estimate_fee_per_trade p < U64_MOD →
        compute_deposit_for_trades n p =
          some (n * estimate_fee_per_trade p))
    ∧ (∀ n p, U64_MOD ≤ n * estimate_fee_per_trade p →
        compute_deposit_for_trades n p = none)
    ∧ estimate_fee_per_trade PriorityLevel.Low <
        estimate_fee_per_trade PriorityLevel.Medium
    ∧ estimate_fee_per_trade PriorityLevel.Medium <
        estimate_fee_per_trade PriorityLevel.High := by
  refine ⟨?_, ?_, by decide, by decide⟩
  · intro n p h
    simp [compute_deposit_for_trades, checkedMulU64, h]
  · intro n p h
    have hn : ¬ (n * estimate_fee_per_trade p < U64_MOD) := by omega
    simp [compute_deposit_for_trades, checkedMulU64, hn]

/-- Witness for C9: three low-priority trades cost `3 × 5000`. -/
theorem claim_C9_deposit_computation_witness :
    compute_deposit_for_trades 3 PriorityLevel.Low =
      some (3 * estimate_fee_per_trade PriorityLevel.Low) :=
  claim_C9_deposit_computation.1 3 PriorityLevel.Low (by decide)

/-- C10: `encrypt_keypair` is deterministic — it takes no randomness, its
key-derivation salt is the fixed constant `EVS_KEY_SALT` and its AEAD
nonce the fixed constant `ZERO_NONCE` — so two runs on equal keypair
bytes and equal key-encryption secrets (under the same deterministic
`ring`/`base64` primitives) produce identical ciphertext, and the
function factors through the general sealing path applied to those fixed
constants. -/
theorem claim_C10_encrypt_deterministic
    (pbkdf2Derive : List Nat → List Nat → List Nat)
    (aesGcmSeal : List Nat → List Nat → List Nat → List Nat)
    (b64Encode : List Nat → List Nat)
    (k1 k2 kek1 kek2 : List Nat) (hk : k1 = k2) (hp : kek1 = kek2) :
    encrypt_keypair pbkdf2Derive aesGcmSeal b64Encode k1 kek1 =
      encrypt_keypair pbkdf2Derive aesGcmSeal b64Encode k2 kek2
    ∧ encrypt_keypair pbkdf2Derive aesGcmSeal b64Encode k1 kek1 =
      sealWithParams pbkdf2Derive aesGcmSeal b64Encode EVS_KEY_SALT
        ZERO_NONCE k1 kek1 := by
  subst hk
  subst hp
  exact ⟨rfl, rfl⟩

/-- Witness for C10 at concrete primitives and inputs. -/
theorem claim_C10_encrypt_deterministic_witness :
    encrypt_keypair (fun s k => s ++ k) (fun key n pt => key ++ n ++ pt)
        (fun bs => bs) [9, 9] [7] =
      encrypt_keypair (fun s k => s ++ k) (fun key n pt => key ++ n ++ pt)
        (fun bs => bs) [9, 9] [7]
    ∧ encrypt_keypair (fun s k => s ++ k) (fun key n pt => key ++ n ++ pt)
        (fun bs => bs) [9, 9] [7] =
      sealWithParams (fun s k => s ++ k) (fun key n pt => key ++ n ++ pt)
        (fun bs => bs) EVS_KEY_SALT ZERO_NONCE [9, 9] [7] :=
  claim_C10_encrypt_deterministic (fun s k => s ++ k)
    (fun key n pt => key ++ n ++ pt) (fun bs => bs) [9, 9] [9, 9] [7] [7]
    rfl rfl
